import Mathlib

/-!
Verification of the dogeorg/indexer core against its natural-language
specification.  The Go source is shallowly embedded: the SQL statements of
`store/pgstore.go` become pure functions on an explicit relational state,
and the indexer loop of `index/indexer.go` and the script classifier of
`index/script.go` become pure Lean functions.  Bytes are `Nat` values
(0..255), byte strings are `List Nat`, SQL BIGINT columns are `Int`, and a
nullable column is an `Option`.
-/

namespace DogeIndexer

/-! ## Data model (store/pgstore.go SCHEMA_v0 and spec/utxo.go, spec/outpoint.go) -/

/-- A row of the `utxo` table: `utxo(txid, vout, value, kind, script, spent NULL)`
with primary key `(txid, vout)`.  `txid` is the surrogate integer key of the
`tx` table; `spent` is the nullable spent-height column. -/
structure UtxoRow where
  txid : Nat
  vout : Nat
  value : Int
  kind : Nat
  script : List Nat
  spent : Option Int
  deriving DecidableEq, Repr

/-- A row of the `tx` table: `tx(txid BIGSERIAL PRIMARY KEY, height, hash)`. -/
structure TxRow where
  txid : Nat
  height : Int
  hash : List Nat
  deriving DecidableEq, Repr

/-- The whole persisted store: the `utxo` and `tx` tables, the single-row
`resume(hash, height)` table (`none` before the first `SetResumePoint`), and
the next value of the `tx.txid` BIGSERIAL sequence. -/
structure StoreState where
  utxos : List UtxoRow
  txs : List TxRow
  resume : Option (List Nat × Int)
  nextTxId : Nat
  deriving DecidableEq, Repr

/-- A freshly migrated database: all tables empty, BIGSERIAL starts at 1. -/
def StoreState.empty : StoreState := ⟨[], [], none, 1⟩

/-- spec.UTXO: the value object passed to `CreateUTXOs` and returned by
`FindUTXOs` (TxID is the 32-byte transaction hash, not the surrogate id). -/
structure UTXO where
  txID : List Nat
  vOut : Nat
  value : Int
  type : Nat
  script : List Nat
  deriving DecidableEq, Repr

/-- spec.OutPointKey: a `(tx_hash, vout)` pair identifying an output. -/
structure OutPointKey where
  tx : List Nat
  vOut : Nat
  deriving DecidableEq, Repr

/-- spec.OutPoint constructor (spec/outpoint.go). -/
def OutPoint (txID : List Nat) (idx : Nat) : OutPointKey := ⟨txID, idx⟩

/-- spec.Balance: the three sums returned by `GetBalance`. -/
structure Balance where
  available : Int
  incoming : Int
  outgoing : Int
  deriving DecidableEq, Repr

/-! ## Store operations (store/pgstore.go)

Each definition is the transliteration of one SQL statement sequence. -/

/-- `GetResumePoint`: `SELECT hash FROM resume LIMIT 1`; the `sql.ErrNoRows`
branch returns `(nil, nil)`, i.e. an empty hash and no error.  The second
component is the error: `none` means a nil error. -/
def getResumePoint (s : StoreState) : List Nat × Option String :=
  match s.resume with
  | none => ([], none)
  | some (h, _) => (h, none)

/-- `SetResumePoint`: `UPDATE resume SET hash=$1, height=$2`, inserting the
single row if the table was empty.  Either way the table afterwards holds
exactly `(hash, height)`. -/
def setResumePoint (hash : List Nat) (height : Int) (s : StoreState) : StoreState :=
  { s with resume := some (hash, height) }

/-- One iteration of `RemoveUTXOs`:
`UPDATE utxo SET spent=$1 WHERE vout=$2 AND txid=(SELECT txid FROM tx WHERE hash=$3)`.
If the scalar subquery finds no `tx` row the predicate matches no `utxo` row. -/
def removeOneUTXO (txs : List TxRow) (o : OutPointKey) (height : Int)
    (utxos : List UtxoRow) : List UtxoRow :=
  match txs.find? (fun t => t.hash == o.tx) with
  | none => utxos
  | some t =>
      utxos.map fun u =>
        if u.txid = t.txid ∧ u.vout = o.vOut then { u with spent := some height } else u

/-- `RemoveUTXOs`: marks each listed outpoint spent at `height`, in order. -/
def removeUTXOs (outs : List OutPointKey) (height : Int) (s : StoreState) : StoreState :=
  { s with utxos := outs.foldl (fun us o => removeOneUTXO s.txs o height us) s.utxos }

/-- First pass of `CreateUTXOs`: insert one `tx` row per distinct hash in the
batch (`INSERT INTO tx (height,hash) VALUES ($1,$2) RETURNING txid`),
assigning consecutive BIGSERIAL ids, in order of first occurrence. -/
def createTxRows (batch : List UTXO) (height : Int) (start : Nat) : List TxRow × Nat :=
  batch.foldl
    (fun acc u =>
      if acc.1.any (fun t => t.hash == u.txID) then acc
      else (acc.1 ++ [⟨acc.2, height, u.txID⟩], acc.2 + 1))
    ([], start)

/-- `CreateUTXOs`: insert the batch's `tx` rows, then insert one `utxo` row per
batch entry (`INSERT INTO utxo (txid,vout,value,kind,script) VALUES (...)`),
each referencing the cached surrogate id of its hash; `spent` starts NULL. -/
def createUTXOs (batch : List UTXO) (height : Int) (s : StoreState) : StoreState :=
  let fresh := createTxRows batch height s.nextTxId
  let newUtxos := batch.filterMap fun u =>
    (fresh.1.find? (fun t => t.hash == u.txID)).map fun t =>
      (⟨t.txid, u.vOut, u.value, u.type, u.script, none⟩ : UtxoRow)
  { s with utxos := s.utxos ++ newUtxos, txs := s.txs ++ fresh.1, nextTxId := fresh.2 }

/-- `FindUTXOs`:
`SELECT t.hash,u.vout,u.value,u.script FROM utxo u INNER JOIN tx t ON u.txid = t.txid
 WHERE u.script=$1 AND u.kind=$2 AND u.spent IS NULL`;
each result row is rebuilt as a spec.UTXO whose Type is the query's `kind`. -/
def findUTXOs (kind : Nat) (address : List Nat) (s : StoreState) : List UTXO :=
  s.utxos.flatMap fun u =>
    if u.script = address ∧ u.kind = kind ∧ u.spent = none then
      (s.txs.filter (fun t => t.txid == u.txid)).map fun t =>
        (⟨t.hash, u.vout, u.value, kind, u.script⟩ : UTXO)
    else []

/-- The inner join `utxo u INNER JOIN tx t ON u.txid = t.txid` used by the
three aggregate subqueries of `GetBalance`. -/
def joinRows (s : StoreState) : List (UtxoRow × TxRow) :=
  s.utxos.flatMap fun u =>
    (s.txs.filter (fun t => t.txid == u.txid)).map fun t => (u, t)

/-- SQL `SUM(u.value)` with `COALESCE(...,0)` over a list of joined rows. -/
def sumValues (rows : List (UtxoRow × TxRow)) : Int :=
  rows.foldl (fun acc r => acc + r.1.value) 0

/-- SQL comparison `spent >= cut` on the nullable `spent` column: false when
the column is NULL. -/
def spentAtLeast (cut : Int) (o : Option Int) : Bool :=
  match o with
  | some sp => decide (cut ≤ sp)
  | none => false

/-- SQL comparison `spent < cut` on the nullable `spent` column: false when
the column is NULL. -/
def spentBelow (cut : Int) (o : Option Int) : Bool :=
  match o with
  | some sp => decide (sp < cut)
  | none => false

/-- `GetBalance(kind, address, confirmations)`: three sums against the resume
height `H` (`SELECT height FROM resume LIMIT 1`).  When the `resume` table is
empty the scalar subquery is NULL, every comparison with it is false, and all
three sums are 0. -/
def getBalance (kind : Nat) (address : List Nat) (confirmations : Int)
    (s : StoreState) : Balance :=
  match s.resume with
  | none => ⟨0, 0, 0⟩
  | some (_, hgt) =>
    let rows := joinRows s
    let sameAddr := fun (r : UtxoRow × TxRow) => r.1.script = address ∧ r.1.kind = kind
    let avail := sumValues (rows.filter fun r =>
      sameAddr r ∧ r.2.height < hgt - confirmations ∧ r.1.spent = none)
    let incom := sumValues (rows.filter fun r =>
      sameAddr r ∧ hgt - confirmations ≤ r.2.height ∧ r.1.spent = none)
    let outgo := sumValues (rows.filter fun r =>
      sameAddr r ∧ spentAtLeast (hgt - confirmations) r.1.spent = true)
    ⟨avail, incom, outgo⟩

/-- Spent-height clearing step of `UndoAbove`:
`UPDATE utxo SET spent=NULL WHERE spent > $1`. -/
def clearSpentAbove (height : Int) (u : UtxoRow) : UtxoRow :=
  match u.spent with
  | some sp => if height < sp then { u with spent := none } else u
  | none => u

/-- `UndoAbove(height)`: delete `utxo` rows whose `tx` row is above `height`
(`DELETE FROM utxo WHERE txid IN (SELECT txid FROM tx WHERE height > $1)`),
delete those `tx` rows, then clear `spent` marks above `height`. -/
def undoAbove (height : Int) (s : StoreState) : StoreState :=
  let keptUtxos := s.utxos.filter fun u =>
    ¬ s.txs.any fun t => t.txid == u.txid && decide (height < t.height)
  { s with
    utxos := keptUtxos.map (clearSpentAbove height),
    txs := s.txs.filter fun t => ¬ height < t.height }

/-- The `utxo.txid` column is declared NOT NULL in SCHEMA_v0, so the SQL test
`u.txid IS NULL` on a joined `utxo` row is always false. -/
def utxoTxidIsNull (_ : UtxoRow) : Bool := false

/-- A generic SQL LEFT OUTER JOIN of `tx` against `utxo` rows under an ON
condition: a `tx` row with no match is kept once, paired with NULL. -/
def leftOuterJoin (ts : List TxRow) (us : List UtxoRow)
    (cond : TxRow → UtxoRow → Bool) : List (TxRow × Option UtxoRow) :=
  ts.flatMap fun t =>
    let ms := us.filter (cond t)
    if ms.isEmpty then [(t, none)] else ms.map fun u => (t, some u)

/-- `TrimSpentUTXOs(height)`: `DELETE FROM utxo WHERE spent < $1`, then
`DELETE FROM tx WHERE txid IN (SELECT t.txid FROM tx t LEFT OUTER JOIN utxo u
 ON t.txid = u.txid AND u.txid IS NULL)`.
The orphan test `u.txid IS NULL` sits inside the JOIN's ON condition (not in a
WHERE clause), so the ON condition never holds, every `tx` row is emitted by
the left join paired with NULL, and the subquery selects every `tx.txid`. -/
def trimSpentUTXOs (height : Int) (s : StoreState) : StoreState :=
  let keptUtxos := s.utxos.filter fun u => ¬ spentBelow height u.spent = true
  let selected := (leftOuterJoin s.txs keptUtxos
    (fun t u => t.txid == u.txid && utxoTxidIsNull u)).map fun p => p.1.txid
  { s with
    utxos := keptUtxos,
    txs := s.txs.filter fun t => ¬ selected.contains t.txid }

/-! ## Script classifier (index/script.go)

Opcode byte values referenced from the doge package (the standard
Bitcoin-family opcode set). -/

def OP_RETURN : Nat := 106
def OP_DUP : Nat := 118
def OP_HASH160 : Nat := 169
def OP_EQUALVERIFY : Nat := 136
def OP_EQUAL : Nat := 135
def OP_CHECKSIG : Nat := 172
def OP_CHECKMULTISIG : Nat := 174
def OP_1 : Nat := 81
def OP_3 : Nat := 83

/-- index/script.go MAX_OP_RETURN_RELAY (from Core IsStandard in policy.cpp). -/
def MAX_OP_RETURN_RELAY : Nat := 83

/-- ScriptType constants of index/script.go (single-byte on-disk values). -/
def ScriptNone : Nat := 0
def ScriptP2PK : Nat := 1
def ScriptP2PKH : Nat := 2
def ScriptP2SH : Nat := 3
def ScriptMultiSig : Nat := 4
def ScriptP2PKHW : Nat := 5
def ScriptP2SHW : Nat := 6
def ScriptNullData : Nat := 7
def ScriptNonStandard : Nat := 8

/-- ScriptMask bit constants of index/script.go. -/
def MaskP2PK : Nat := 1
def MaskP2PKH : Nat := 2
def MaskP2SH : Nat := 4
def MaskMultiSig : Nat := 8
def MaskP2PKHW : Nat := 16
def MaskP2SHW : Nat := 32
def MaskNullData : Nat := 64
def MaskNonStandard : Nat := 128

/-- index/script.go isOP123: `op >= doge.OP_1 && op <= doge.OP_3`. -/
def isOP123 (op : Nat) : Bool := decide (OP_1 ≤ op ∧ op ≤ OP_3)

/-- index/script.go decodeOP_N: `int(op - (doge.OP_1 - 1))`. -/
def decodeOPN (op : Nat) : Nat := op - (OP_1 - 1)

/-- The key-scanning loop of the multisig branch of ClassifyAndCompactScript,
recursing on the remaining key count `N_Keys` (the Go loop decrements it each
iteration and its guard requires `N_Keys > 0`).  State is `(ofs, N_Keys)`;
a push-op that does not fit sets `ofs = 0` and breaks without decrementing. -/
def msLoop (script : List Nat) (eok : Nat) : Nat → Nat → Nat × Nat
  | ofs, 0 => (ofs, 0)
  | ofs, n + 1 =>
    if ofs < eok then
      if script.getD ofs 0 = 65 ∧ ofs + 66 ≤ eok then msLoop script eok (ofs + 66) n
      else if script.getD ofs 0 = 33 ∧ ofs + 34 ≤ eok then msLoop script eok (ofs + 34) n
      else (0, n + 1)
    else (ofs, n + 1)

/-- Success test after the loop: `ofs == endOfKeys && N_Keys == 0`
(all key data consumed and exactly N keys found), starting at `ofs = 1`. -/
def msLoopSucceeds (script : List Nat) (eok : Nat) (nKeys : Nat) : Bool :=
  msLoop script eok 1 nKeys == (eok, 0)

/-- The buffer built by the final NonStandard branch of
ClassifyAndCompactScript (`compact[0] = ScriptNonStandard` followed by the
whole script).  The source constructs it and then discards it, returning nil. -/
def nonStdCompactBuffer (script : List Nat) : List Nat :=
  ScriptNonStandard :: script

/-- The conjunction of multisig guard tests of index/script.go lines 96-114:
`L >= 3+34`, trailing OP_CHECKMULTISIG, OP_1..OP_3 second-last and first
bytes, `M_Keys <= N_Keys`, and the key-scan loop consuming all key data with
exactly N keys found. -/
def msShapeCode (script : List Nat) : Prop :=
  3 + 34 ≤ script.length ∧
  script.getD (script.length - 1) 0 = OP_CHECKMULTISIG ∧
  isOP123 (script.getD (script.length - 2) 0) = true ∧
  isOP123 (script.getD 0 0) = true ∧
  decodeOPN (script.getD 0 0) ≤ decodeOPN (script.getD (script.length - 2) 0) ∧
  msLoopSucceeds script (script.length - 2)
    (decodeOPN (script.getD (script.length - 2) 0)) = true

instance (script : List Nat) : Decidable (msShapeCode script) := by
  unfold msShapeCode; infer_instance

/-- The multisig test and fall-through tail of ClassifyAndCompactScript
(index/script.go lines 95-134), reached when none of the fixed patterns
matched.  The guard conditions are exactly those of the source: the combined
mask test and the shape tests collected in msShapeCode. -/
def multisigOrFallthrough (script : List Nat) (mask : Nat) : Nat × List Nat :=
  let L := script.length
  if mask &&& (MaskMultiSig ||| MaskNonStandard) ≠ 0 ∧ msShapeCode script then
    if mask &&& MaskMultiSig ≠ 0 then
      -- all of the script, minus the last OP_CHECKMULTISIG opcode
      (ScriptMultiSig, script.take (L - 1))
    else (ScriptNone, [])
  else if mask &&& MaskNonStandard ≠ 0 then
    -- the constructed nonStdCompactBuffer is dead: the source returns nil
    (ScriptNonStandard, [])
  else (ScriptNone, [])

/-- index/script.go ClassifyAndCompactScript: pattern match in source order
(NullData, P2PKH, compressed P2PK, uncompressed P2PK, P2SH, multisig,
NonStandard), each branch masked by the retain-mask. -/
def classifyAndCompactScript (script : List Nat) (mask : Nat) : Nat × List Nat :=
  let L := script.length
  if 0 < L ∧ script.getD 0 0 = OP_RETURN ∧ L ≤ MAX_OP_RETURN_RELAY then
    if mask &&& MaskNullData ≠ 0 then (ScriptNullData, script.drop 1)
    else (ScriptNone, [])
  else if L = 25 ∧ script.getD 0 0 = OP_DUP ∧ script.getD 1 0 = OP_HASH160 ∧
      script.getD 2 0 = 20 ∧ script.getD 23 0 = OP_EQUALVERIFY ∧
      script.getD 24 0 = OP_CHECKSIG then
    if mask &&& MaskP2PKH ≠ 0 then (ScriptP2PKH, (script.drop 3).take 20)
    else (ScriptNone, [])
  else if L = 35 ∧ script.getD 0 0 = 33 ∧ script.getD 34 0 = OP_CHECKSIG then
    if mask &&& MaskP2PK ≠ 0 then (ScriptP2PK, (script.drop 1).take 33)
    else (ScriptNone, [])
  else if L = 67 ∧ script.getD 0 0 = 65 ∧ script.getD 66 0 = OP_CHECKSIG then
    if mask &&& MaskP2PK ≠ 0 then (ScriptP2PK, (script.drop 1).take 65)
    else (ScriptNone, [])
  else if L = 23 ∧ script.getD 0 0 = OP_HASH160 ∧ script.getD 1 0 = 20 ∧
      script.getD 22 0 = OP_EQUAL then
    if mask &&& MaskP2SH ≠ 0 then (ScriptP2SH, (script.drop 2).take 20)
    else (ScriptNone, [])
  else multisigOrFallthrough script mask

/-! ## Indexer loop (index/indexer.go) -/

def ONE_DOGE : Int := 100000000
def DUST_LIMIT : Int := ONE_DOGE / 100

/-- index/indexer.go Zeroes: the all-zero 32-byte coinbase sentinel hash. -/
def Zeroes : List Nat := List.replicate 32 0

/-- One transaction input of a walker block (32-byte prev-tx hash + vout). -/
structure TxIn where
  txID : List Nat
  vOut : Nat
  deriving DecidableEq, Repr

/-- One transaction output of a walker block (value + raw locking script). -/
structure TxOut where
  value : Int
  script : List Nat
  deriving DecidableEq, Repr

/-- One transaction of a walker block. -/
structure BlockTx where
  txID : List Nat
  vIn : List TxIn
  vOut : List TxOut
  deriving DecidableEq, Repr

/-- The transaction list of a walker block (`cmd.Block.Block.Tx`). -/
structure BlockMsg where
  txList : List BlockTx
  deriving DecidableEq, Repr

/-- A walker.BlockOrUndo event: the new resume height, the new resume hash as
a hex string, and either a block to apply (`block = some _`), an undo
(`undo = true`), or an idle tick. -/
structure BlockOrUndo where
  height : Int
  lastProcessedBlock : String
  block : Option BlockMsg
  undo : Bool
  deriving Repr

/-- One hex digit of encoding/hex (0-9, a-f, A-F). -/
def hexDigit (c : Char) : Option Nat :=
  if '0' ≤ c ∧ c ≤ '9' then some (c.toNat - 48)
  else if 'a' ≤ c ∧ c ≤ 'f' then some (c.toNat - 87)
  else if 'A' ≤ c ∧ c ≤ 'F' then some (c.toNat - 55)
  else none

/-- encoding/hex DecodeString over the character list: decodes byte pairs,
stopping at the first invalid digit or at a dangling odd character; returns
the bytes decoded before the error together with an ok flag (`false` means
DecodeString returned a non-nil error). -/
def hexDecodeChars : List Char → List Nat × Bool
  | [] => ([], true)
  | [_] => ([], false)
  | c1 :: c2 :: rest =>
    match hexDigit c1, hexDigit c2 with
    | some hi, some lo =>
      let tail := hexDecodeChars rest
      ((hi * 16 + lo) :: tail.1, tail.2)
    | _, _ => ([], false)

/-- encoding/hex DecodeString on a Lean string. -/
def hexDecodeString (s : String) : List Nat × Bool :=
  hexDecodeChars s.data

/-- The remove-list built by the forward-apply branch: one outpoint per input
of every transaction, skipping coinbase inputs (prev hash all zeroes). -/
def blockRemoveList (b : BlockMsg) : List OutPointKey :=
  b.txList.flatMap fun tx =>
    tx.vIn.filterMap fun i =>
      if i.txID = Zeroes then none else some (OutPoint i.txID i.vOut)

/-- The create-list built by the forward-apply branch: for every output with
`Value > 0`, classify the script (`doge.ClassifyScript`, passed in here as
the `classify` parameter since it lives outside this repository) and keep the
output unless the type is NonStandard or NullData. -/
def blockCreateList (classify : List Nat → Nat × List Nat) (b : BlockMsg) : List UTXO :=
  b.txList.flatMap fun tx =>
    tx.vOut.enum.filterMap fun p =>
      if 0 < p.2.value then
        let tc := classify p.2.script
        if tc.1 ≠ ScriptNonStandard ∧ tc.1 ≠ ScriptNullData then
          some ⟨tx.txID, p.1, p.2.value, tc.1, tc.2⟩
        else none
      else none

/-- One iteration of the indexer loop (index/indexer.go Run, lines 81-172)
applied to the store state, with the retry-until-commit loop collapsed to the
successful commit.  The resume hash is hex-decoded first; on a decode error
the source only logs and sleeps - there is no skip, so the event is processed
with the partially decoded hash.  A Block event builds the remove/create
lists and, only when at least one list is non-empty, runs one transaction:
RemoveUTXOs (if any), CreateUTXOs (if any), then SetResumePoint.  An Undo
event runs UndoAbove then SetResumePoint.  An idle event does nothing. -/
def processEvent (classify : List Nat → Nat × List Nat) (cmd : BlockOrUndo)
    (s : StoreState) : StoreState :=
  let resumeHash := (hexDecodeString cmd.lastProcessedBlock).1
  match cmd.block with
  | some b =>
    let rem := blockRemoveList b
    let cre := blockCreateList classify b
    if rem ≠ [] ∨ cre ≠ [] then
      let s1 := if rem ≠ [] then removeUTXOs rem cmd.height s else s
      let s2 := if cre ≠ [] then createUTXOs cre cmd.height s1 else s1
      setResumePoint resumeHash cmd.height s2
    else s
  | none =>
    if cmd.undo then
      setResumePoint resumeHash cmd.height (undoAbove cmd.height s)
    else s

/-- One lowercase hex digit character. -/
def hexDigitChar (n : Nat) : Char :=
  if n < 10 then Char.ofNat (48 + n) else Char.ofNat (87 + n)

/-- doge.HexEncode (external package): lowercase hex of a byte string. -/
def hexEncodeList (bs : List Nat) : String :=
  String.mk (bs.flatMap fun b => [hexDigitChar (b / 16), hexDigitChar (b % 16)])

/-- main.go resume-point fallback (`if len(fromBlock) > 0`): hex-encode the
stored hash when non-empty, otherwise start from the genesis block hash. -/
def resolveStartHash (fromBlock : List Nat) (genesisHash : String) : String :=
  if 0 < fromBlock.length then hexEncodeList fromBlock else genesisHash

/-! ## Spec-side multisig shape (from the specification wording, for the
refinement claim about the multisig classification) -/

/-- Spec-side sequential key parse: the given bytes are exactly `n` push-ops,
each `0x21` followed by 33 bytes or `0x41` followed by 65 bytes, with no
leftover bytes. -/
def parsePushKeys : Nat → List Nat → Bool
  | 0, bs => bs.isEmpty
  | n + 1, bs =>
    (bs.head? == some 33 && decide (34 ≤ bs.length) && parsePushKeys n (bs.drop 34)) ||
    (bs.head? == some 65 && decide (66 ≤ bs.length) && parsePushKeys n (bs.drop 66))

/-- Spec-side standard-multisig shape, per the specification: last byte is
OP_CHECKMULTISIG, first and second-last bytes are each OP_1..OP_3, decoded
m is at most decoded n, and the bytes strictly between the first and the
second-last byte parse as exactly n push-ops with no leftover. -/
def isStandardMultiSig (sc : List Nat) : Bool :=
  let L := sc.length
  sc.getD (L - 1) 0 == OP_CHECKMULTISIG &&
  isOP123 (sc.getD 0 0) && isOP123 (sc.getD (L - 2) 0) &&
  decide (decodeOPN (sc.getD 0 0) ≤ decodeOPN (sc.getD (L - 2) 0)) &&
  parsePushKeys (decodeOPN (sc.getD (L - 2) 0)) ((sc.drop 1).take (L - 3))

/-! ## Concrete fixtures used by the scenario theorems and witnesses -/

/-- doge.ClassifyScript as called by the indexer, instantiated with the
repository's own classifier retaining every script class. -/
def classifyAll : List Nat → Nat × List Nat := fun sc => classifyAndCompactScript sc 255

def addrAA : List Nat := List.replicate 20 170
def hashA1 : List Nat := List.replicate 32 161
def resumeHashDD : List Nat := List.replicate 32 221
def utxoA1 : UTXO := ⟨hashA1, 0, 1000, ScriptP2PKH, addrAA⟩

/-- One unspent 1000-value P2PKH UTXO created at height 100, resume at 200. -/
def trimDemo : StoreState :=
  setResumePoint resumeHashDD 200 (createUTXOs [utxoA1] 100 StoreState.empty)

/-- A transaction whose only input is the coinbase sentinel and which has no
outputs: it contributes nothing to either work list. -/
def coinbaseOnlyTx : BlockTx := ⟨List.replicate 32 9, [⟨Zeroes, 0⟩], []⟩

/-- A Block event (resume hash hex "ab", height 11) carrying only
coinbaseOnlyTx. -/
def coinbaseOnlyEvent : BlockOrUndo := ⟨11, "ab", some ⟨[coinbaseOnlyTx]⟩, false⟩

/-- Store state before the events above: resume at height 10. -/
def beforeEmptyBlock : StoreState :=
  setResumePoint (List.replicate 32 5) 10 StoreState.empty

/-- A standard 25-byte P2PKH locking script over a 20-byte hash of 0xCC. -/
def p2pkhScriptCC : List Nat :=
  [OP_DUP, OP_HASH160, 20] ++ List.replicate 20 204 ++ [OP_EQUALVERIFY, OP_CHECKSIG]

/-- A transaction with one dust-valued output: value 1 (far below DUST_LIMIT)
locked by a standard P2PKH script. -/
def dustOutputTx : BlockTx := ⟨List.replicate 32 9, [⟨Zeroes, 0⟩], [⟨1, p2pkhScriptCC⟩]⟩

/-- A Block event (resume hash hex "ab", height 20) carrying dustOutputTx. -/
def dustEvent : BlockOrUndo := ⟨20, "ab", some ⟨[dustOutputTx]⟩, false⟩

/-- A Block event whose resume hash "zz" is not valid hex, spending utxoA1. -/
def badHexEvent : BlockOrUndo :=
  ⟨50, "zz", some ⟨[⟨List.replicate 32 9, [⟨hashA1, 0⟩], []⟩]⟩, false⟩

/-- Store state before badHexEvent: utxoA1 unspent at height 40, resume 49. -/
def beforeBadHex : StoreState :=
  setResumePoint resumeHashDD 49 (createUTXOs [utxoA1] 40 StoreState.empty)

def addrCC : List Nat := List.replicate 20 204
def hashA3 : List Nat := List.replicate 32 163
def hashB4 : List Nat := List.replicate 32 180
def hashC5 : List Nat := List.replicate 32 197
def utxoA3 : UTXO := ⟨hashA3, 0, 1000, ScriptP2PKH, addrCC⟩
def utxoB4 : UTXO := ⟨hashB4, 1, 2000, ScriptP2PKH, addrCC⟩
def utxoC5 : UTXO := ⟨hashC5, 0, 3000, ScriptP2PKH, addrCC⟩

/-- The UndoAbove scenario of the specification: create A and B at height
100, spend A at 105 and B at 107, create C at 110. -/
def undoDemoBefore : StoreState :=
  createUTXOs [utxoC5] 110
    (removeUTXOs [OutPoint hashB4 1] 107
      (removeUTXOs [OutPoint hashA3 0] 105
        (createUTXOs [utxoA3, utxoB4] 100 StoreState.empty)))

/-- The scenario state after UndoAbove(106). -/
def undoDemo : StoreState := undoAbove 106 undoDemoBefore

def addr22 : List Nat := List.replicate 20 34

/-- The confirmations-boundary scenario: one 1000-value UTXO at height 100,
resume height 105. -/
def balanceDemo105 : StoreState :=
  setResumePoint (List.replicate 32 17) 105
    (createUTXOs [⟨hashA1, 0, 1000, ScriptP2PKH, addr22⟩] 100 StoreState.empty)

/-- The same state with the resume height advanced to 107. -/
def balanceDemo107 : StoreState :=
  setResumePoint (List.replicate 32 34) 107 balanceDemo105

/-- A standard 1-of-1 multisig script with one compressed key:
OP_1 0x21 <33 bytes> OP_1 OP_CHECKMULTISIG. -/
def msDemo : List Nat := [81, 33] ++ List.replicate 33 7 ++ [81, 174]

/-! ## Theorems -/

/-- SQL SUM as a foldl equals the sum of the mapped values. -/
lemma sumValues_eq_map_sum (rows : List (UtxoRow × TxRow)) :
    sumValues rows = (rows.map fun r => r.1.value).sum := by
  have key : ∀ (l : List (UtxoRow × TxRow)) (c : Int),
      l.foldl (fun acc r => acc + r.1.value) c = c + (l.map fun r => r.1.value).sum := by
    intro l
    induction l with
    | nil => intro c; simp
    | cons a l ih => intro c; simp [ih, add_assoc]
  simpa [sumValues] using key rows 0

/-- Claim C1 (refuted by evaluation): TrimSpentUTXOs is claimed to
garbage-collect only orphan tx rows and to change no FindUTXOs or GetBalance
answer.  On a store holding a single unspent UTXO at height 100 with resume
height 200, trimming at cutoff 50 (well below `200 - 100`) keeps the utxo row
but deletes its (live) tx row, after which FindUTXOs returns nothing and the
available balance drops from 1000 to 0. -/
theorem trim_gc_deletes_live_tx_rows_C1 :
    findUTXOs ScriptP2PKH addrAA trimDemo = [utxoA1] ∧
    (50 : Int) ≤ 200 - 100 ∧
    (trimSpentUTXOs 50 trimDemo).utxos = trimDemo.utxos ∧
    (trimSpentUTXOs 50 trimDemo).txs = [] ∧
    findUTXOs ScriptP2PKH addrAA (trimSpentUTXOs 50 trimDemo) = [] ∧
    (getBalance ScriptP2PKH addrAA 0 trimDemo).available = 1000 ∧
    (getBalance ScriptP2PKH addrAA 0 (trimSpentUTXOs 50 trimDemo)).available = 0 := by
  exact ⟨rfl, by decide, rfl, rfl, rfl, rfl, rfl⟩

/-- Claim C2 (amended): the indexer writes the resume cursor for a Block
event exactly when at least one of the remove/create lists is non-empty;
when both are empty the whole transaction, including the cursor write, is
skipped and the store is unchanged. -/
theorem cursor_write_requires_utxo_work_C2 :
    (∀ (classify : List Nat → Nat × List Nat) (cmd : BlockOrUndo) (b : BlockMsg)
        (s : StoreState), cmd.block = some b → blockRemoveList b = [] →
        blockCreateList classify b = [] → processEvent classify cmd s = s) ∧
    (∀ (classify : List Nat → Nat × List Nat) (cmd : BlockOrUndo) (b : BlockMsg)
        (s : StoreState), cmd.block = some b →
        (blockRemoveList b ≠ [] ∨ blockCreateList classify b ≠ []) →
        (processEvent classify cmd s).resume =
          some ((hexDecodeString cmd.lastProcessedBlock).1, cmd.height)) := by
  constructor
  · intro classify cmd b s hb h1 h2
    unfold processEvent
    rw [hb]
    simp [h1, h2]
  · intro classify cmd b s hb hor
    unfold processEvent
    rw [hb]
    simp only []
    rw [if_pos hor]
    rfl

/-- Claim C2 counterexample: a Block event carrying only a coinbase-input,
no-output transaction produces empty work lists; processing it leaves the
store (including the resume cursor) unchanged, so the persisted resume point
does not equal the event's (hash, height). -/
theorem empty_block_cursor_not_advanced_C2_cex :
    processEvent classifyAll coinbaseOnlyEvent beforeEmptyBlock = beforeEmptyBlock ∧
    (processEvent classifyAll coinbaseOnlyEvent beforeEmptyBlock).resume ≠
      some ((hexDecodeString coinbaseOnlyEvent.lastProcessedBlock).1,
        coinbaseOnlyEvent.height) := by
  exact ⟨rfl, by decide⟩

/-- Witness for C2: both parts of the amended theorem applied at concrete
events (the all-coinbase block, and a block that creates one UTXO). -/
theorem cursor_write_requires_utxo_work_C2_witness :
    processEvent classifyAll coinbaseOnlyEvent beforeEmptyBlock = beforeEmptyBlock ∧
    (processEvent classifyAll dustEvent beforeEmptyBlock).resume =
      some ((hexDecodeString dustEvent.lastProcessedBlock).1, dustEvent.height) := by
  exact ⟨cursor_write_requires_utxo_work_C2.1 classifyAll coinbaseOnlyEvent
      ⟨[coinbaseOnlyTx]⟩ beforeEmptyBlock rfl rfl rfl,
    cursor_write_requires_utxo_work_C2.2 classifyAll dustEvent
      ⟨[dustOutputTx]⟩ beforeEmptyBlock rfl (Or.inr (by decide))⟩

/-- Claim C3 (amended): the forward-apply loop enqueues a UTXO for every
output with `Value > 0` whose classified type is neither NonStandard nor
NullData; no dust threshold is applied. -/
theorem positive_value_outputs_indexed_C3 :
    ∀ (classify : List Nat → Nat × List Nat) (b : BlockMsg) (tx : BlockTx)
      (i : Nat) (o : TxOut), tx ∈ b.txList → tx.vOut[i]? = some o →
      0 < o.value → (classify o.script).1 ≠ ScriptNonStandard →
      (classify o.script).1 ≠ ScriptNullData →
      (⟨tx.txID, i, o.value, (classify o.script).1, (classify o.script).2⟩ : UTXO)
        ∈ blockCreateList classify b := by
  intro classify b tx i o htx hio hv h8 h7
  unfold blockCreateList
  rw [List.mem_flatMap]
  refine ⟨tx, htx, ?_⟩
  rw [List.mem_filterMap]
  refine ⟨(i, o), List.mem_enum_iff_getElem?.mpr (by simpa using hio), ?_⟩
  simp [hv, h8, h7]

/-- Claim C3 counterexample: an output of value 1 (strictly below
DUST_LIMIT = 1000000) locked by a standard P2PKH script is enqueued for
creation and ends up as a utxo row after the event commits, so dust outputs
are indexed. -/
theorem dust_output_indexed_C3_cex :
    (0 : Int) < 1 ∧ (1 : Int) < DUST_LIMIT ∧
    blockCreateList classifyAll ⟨[dustOutputTx]⟩ =
      [⟨List.replicate 32 9, 0, 1, ScriptP2PKH, List.replicate 20 204⟩] ∧
    (processEvent classifyAll dustEvent beforeEmptyBlock).utxos =
      [⟨1, 0, 1, ScriptP2PKH, List.replicate 20 204, none⟩] := by
  exact ⟨by decide, by decide, rfl, rfl⟩

/-- Witness for C3: the amended theorem applied to the value-1 P2PKH output
of dustOutputTx. -/
theorem positive_value_outputs_indexed_C3_witness :
    (⟨List.replicate 32 9, 0, (1 : Int), ScriptP2PKH, List.replicate 20 204⟩ : UTXO)
      ∈ blockCreateList classifyAll ⟨[dustOutputTx]⟩ := by
  exact positive_value_outputs_indexed_C3 classifyAll ⟨[dustOutputTx]⟩ dustOutputTx 0
    ⟨1, p2pkhScriptCC⟩ (by simp) rfl (by decide) (by decide) (by decide)

/-- Claim C4 (refuted by evaluation): on an event whose resume hash is not
valid hex ("zz"), the indexer logs and sleeps but, lacking a loop skip,
still applies the event: the spend is marked and the resume cursor is set to
the partially decoded (empty) hash, so the store state does change. -/
theorem malformed_hex_event_applied_C4 :
    (hexDecodeString badHexEvent.lastProcessedBlock).2 = false ∧
    processEvent classifyAll badHexEvent beforeBadHex ≠ beforeBadHex ∧
    (processEvent classifyAll badHexEvent beforeBadHex).resume = some ([], 50) ∧
    (processEvent classifyAll badHexEvent beforeBadHex).utxos =
      [⟨1, 0, 1000, ScriptP2PKH, addrAA, some 50⟩] := by
  exact ⟨rfl, by decide, rfl, rfl⟩

/-- Claim C5 (amended): whenever ClassifyAndCompactScript classifies a script
as NonStandard its returned payload is empty (nil): the NonStandard branch
builds the compact buffer but returns nil instead of it. -/
theorem nonstandard_payload_is_empty_C5 :
    ∀ (sc : List Nat) (mask : Nat),
      (classifyAndCompactScript sc mask).1 = ScriptNonStandard →
      (classifyAndCompactScript sc mask).2 = [] := by
  intro sc mask h
  simp only [classifyAndCompactScript, multisigOrFallthrough] at h ⊢
  split_ifs at h ⊢ <;>
    simp_all [ScriptNullData, ScriptNonStandard, ScriptP2PKH, ScriptP2PK,
      ScriptP2SH, ScriptMultiSig, ScriptNone]

/-- Claim C5 counterexample: the one-byte script [0x00] is NonStandard and
MaskNonStandard is set, yet the returned payload is not the whole script
(it is empty); the discarded buffer would have been the tag byte followed by
the script. -/
theorem nonstandard_whole_script_C5_cex :
    (classifyAndCompactScript [0] MaskNonStandard).1 = ScriptNonStandard ∧
    MaskNonStandard &&& MaskNonStandard ≠ 0 ∧
    (classifyAndCompactScript [0] MaskNonStandard).2 ≠ [0] ∧
    nonStdCompactBuffer [0] = [ScriptNonStandard, 0] := by decide

/-- Witness for C5: the amended theorem applied to the script [0x00] under
MaskNonStandard. -/
theorem nonstandard_payload_is_empty_C5_witness :
    (classifyAndCompactScript [0] MaskNonStandard).2 = [] :=
  nonstandard_payload_is_empty_C5 [0] MaskNonStandard (by decide)

/-- Claim C9: when the store holds no resume row, GetResumePoint returns an
empty hash and a nil error (the sql.ErrNoRows branch), and the caller in
main.go then falls back to the genesis block hash. -/
theorem empty_resume_returns_empty_hash_C9 :
    ∀ s : StoreState, s.resume = none →
      getResumePoint s = ([], none) ∧
      ∀ g : String, resolveStartHash (getResumePoint s).1 g = g := by
  intro s h
  have hg : getResumePoint s = ([], none) := by unfold getResumePoint; rw [h]
  exact ⟨hg, fun g => by rw [hg]; rfl⟩

/-- Witness for C9: the fresh store has no resume row; GetResumePoint yields
an empty hash with no error and the start hash resolves to the genesis. -/
theorem empty_resume_returns_empty_hash_C9_witness :
    getResumePoint StoreState.empty = ([], none) ∧
    resolveStartHash (getResumePoint StoreState.empty).1 "genesis" = "genesis" :=
  ⟨(empty_resume_returns_empty_hash_C9 StoreState.empty rfl).1,
   (empty_resume_returns_empty_hash_C9 StoreState.empty rfl).2 "genesis"⟩

/-- Claim C10: ClassifyAndCompactScript never returns the witness types
P2PKHW (5) or P2SHW (6); its result type is always one of None, P2PK, P2PKH,
P2SH, MultiSig, NullData, or NonStandard. -/
theorem classifier_never_returns_witness_types_C10 :
    ∀ (sc : List Nat) (mask : Nat),
      (classifyAndCompactScript sc mask).1 ≠ ScriptP2PKHW ∧
      (classifyAndCompactScript sc mask).1 ≠ ScriptP2SHW ∧
      ((classifyAndCompactScript sc mask).1 = ScriptNone ∨
       (classifyAndCompactScript sc mask).1 = ScriptP2PK ∨
       (classifyAndCompactScript sc mask).1 = ScriptP2PKH ∨
       (classifyAndCompactScript sc mask).1 = ScriptP2SH ∨
       (classifyAndCompactScript sc mask).1 = ScriptMultiSig ∨
       (classifyAndCompactScript sc mask).1 = ScriptNullData ∨
       (classifyAndCompactScript sc mask).1 = ScriptNonStandard) := by
  intro sc mask
  simp only [classifyAndCompactScript, multisigOrFallthrough]
  split_ifs <;>
    simp [ScriptNone, ScriptP2PK, ScriptP2PKH, ScriptP2SH, ScriptMultiSig,
      ScriptP2PKHW, ScriptP2SHW, ScriptNullData, ScriptNonStandard]

/-- Claim C6: UndoAbove(h) deletes exactly the utxo rows whose tx row is
above h, deletes exactly the tx rows above h, clears spent marks above h on
the remaining rows; and in the concrete A/B/C scenario, UndoAbove(106)
leaves FindUTXOs returning exactly B, keeps A spent at 105, and deletes C
(surrogate txid 3). -/
theorem undoAbove_exact_effect_C6 :
    (∀ (s : StoreState) (h : Int) (t : TxRow),
        t ∈ (undoAbove h s).txs ↔ t ∈ s.txs ∧ t.height ≤ h) ∧
    (∀ (s : StoreState) (h : Int) (u : UtxoRow),
        u ∈ (undoAbove h s).utxos ↔
          ∃ v ∈ s.utxos, (∀ t ∈ s.txs, t.txid = v.txid → t.height ≤ h) ∧
            u = clearSpentAbove h v) ∧
    findUTXOs ScriptP2PKH addrCC undoDemo = [⟨hashB4, 1, 2000, ScriptP2PKH, addrCC⟩] ∧
    (⟨1, 0, 1000, ScriptP2PKH, addrCC, some 105⟩ : UtxoRow) ∈ undoDemo.utxos ∧
    (∀ u ∈ undoDemo.utxos, u.txid ≠ 3) ∧ (∀ t ∈ undoDemo.txs, t.txid ≠ 3) := by
  refine ⟨?_, ?_, rfl, by decide, by decide, by decide⟩
  · intro s h t
    simp [undoAbove, List.mem_filter, not_lt]
  · intro s h u
    simp only [undoAbove, List.mem_map, List.mem_filter, List.any_eq_true,
      Bool.and_eq_true, beq_iff_eq, decide_eq_true_eq]
    constructor
    · rintro ⟨v, ⟨hv, hnot⟩, hev⟩
      refine ⟨v, hv, ?_, hev.symm⟩
      intro t ht htid
      by_contra hgt
      exact hnot ⟨t, ht, htid, not_le.mp hgt⟩
    · rintro ⟨v, hv, hall, hev⟩
      refine ⟨v, ⟨hv, ?_⟩, hev.symm⟩
      rintro ⟨t, ht, htid, hgt⟩
      exact absurd (hall t ht htid) (not_le.mpr hgt)

/-- Witness for C6: the tx row of C (height 110) is in the scenario store
before the undo, and the characterization shows it cannot survive
UndoAbove(106). -/
theorem undoAbove_exact_effect_C6_witness :
    (⟨3, 110, hashC5⟩ : TxRow) ∈ undoDemoBefore.txs ∧
    (⟨3, 110, hashC5⟩ : TxRow) ∉ (undoAbove 106 undoDemoBefore).txs := by
  refine ⟨by decide, ?_⟩
  intro hmem
  have h := (undoAbove_exact_effect_C6.1 undoDemoBefore 106 ⟨3, 110, hashC5⟩).mp hmem
  exact absurd h.2 (by decide)

/-- Claim C7: with resume height H, GetBalance(kind, address, confirmations)
returns available = sum of unspent matching values with tx.height below
H - confirmations, incoming = sum of unspent matching values with tx.height
at least H - confirmations, outgoing = sum of matching values with spent at
least H - confirmations; and the boundary scenario gives (0, 1000, 0) at
resume 105 and (1000, 0, 0) at resume 107 for six confirmations. -/
theorem getBalance_formulas_C7 :
    (∀ (kind : Nat) (address : List Nat) (conf : Int) (s : StoreState)
        (rh : List Nat) (hgt : Int), s.resume = some (rh, hgt) →
        getBalance kind address conf s =
          ⟨(((joinRows s).filter fun r => (r.1.script = address ∧ r.1.kind = kind) ∧
              r.2.height < hgt - conf ∧ r.1.spent = none).map fun r => r.1.value).sum,
           (((joinRows s).filter fun r => (r.1.script = address ∧ r.1.kind = kind) ∧
              hgt - conf ≤ r.2.height ∧ r.1.spent = none).map fun r => r.1.value).sum,
           (((joinRows s).filter fun r => (r.1.script = address ∧ r.1.kind = kind) ∧
              spentAtLeast (hgt - conf) r.1.spent = true).map fun r => r.1.value).sum⟩) ∧
    getBalance ScriptP2PKH addr22 6 balanceDemo105 = ⟨0, 1000, 0⟩ ∧
    getBalance ScriptP2PKH addr22 6 balanceDemo107 = ⟨1000, 0, 0⟩ := by
  refine ⟨?_, rfl, rfl⟩
  intro kind address conf s rh hgt h
  unfold getBalance
  rw [h]
  simp only [sumValues_eq_map_sum]

/-- Witness for C7: the sum formulas applied at the concrete boundary store
with resume height 105 yield the scenario balances. -/
theorem getBalance_formulas_C7_witness :
    getBalance ScriptP2PKH addr22 6 balanceDemo105 = ⟨0, 1000, 0⟩ := by
  have h := getBalance_formulas_C7.1 ScriptP2PKH addr22 6 balanceDemo105
    (List.replicate 32 17) 105 rfl
  exact h.trans (by decide)

/-- One parsed push-op needs at least 34 bytes. -/
lemma parsePushKeys_length_ge (n : Nat) (bs : List Nat)
    (h : parsePushKeys (n + 1) bs = true) : 34 ≤ bs.length := by
  unfold parsePushKeys at h
  simp only [Bool.or_eq_true, Bool.and_eq_true, decide_eq_true_eq] at h
  rcases h with ⟨⟨_, hl⟩, _⟩ | ⟨⟨_, hl⟩, _⟩ <;> omega

/-- The key-scan loop of the source reaches (endOfKeys, 0) exactly when the
bytes from `ofs` up to `endOfKeys` parse as exactly n sequential push-ops. -/
lemma msLoop_iff_parse (sc : List Nat) (E : Nat) (hE : E ≤ sc.length) :
    ∀ (n ofs : Nat), ofs ≤ E →
      (msLoop sc E ofs n = (E, 0) ↔ parsePushKeys n ((sc.take E).drop ofs) = true) := by
  intro n
  induction n with
  | zero =>
    intro ofs hofs
    simp only [msLoop, parsePushKeys]
    constructor
    · intro h
      have he : ofs = E := ((Prod.mk.injEq _ _ _ _).mp h).1
      rw [List.isEmpty_iff]
      apply List.eq_nil_of_length_eq_zero
      rw [List.length_drop, List.length_take]
      omega
    · intro h
      rw [List.isEmpty_iff] at h
      have hlen := congrArg List.length h
      rw [List.length_drop, List.length_take] at hlen
      simp only [List.length_nil] at hlen
      have he : ofs = E := by omega
      rw [he]
  | succ n ih =>
    intro ofs hofs
    have hstep : msLoop sc E ofs (n + 1) =
        if ofs < E then
          (if sc.getD ofs 0 = 65 ∧ ofs + 66 ≤ E then msLoop sc E (ofs + 66) n
           else if sc.getD ofs 0 = 33 ∧ ofs + 34 ≤ E then msLoop sc E (ofs + 34) n
           else (0, n + 1))
        else (ofs, n + 1) := rfl
    by_cases hlt : ofs < E
    · have hlsc : ofs < sc.length := lt_of_lt_of_le hlt hE
      have hget : sc[ofs]? = some (sc.getD ofs 0) := by
        rw [List.getD_eq_getElem?_getD, List.getElem?_eq_getElem hlsc]
        rfl
      have hhead : ((sc.take E).drop ofs).head? = some (sc.getD ofs 0) := by
        rw [List.head?_eq_getElem?, List.getElem?_drop, Nat.add_zero, List.getElem?_take,
          if_pos hlt, hget]
      have hlen2 : ((sc.take E).drop ofs).length = E - ofs := by
        rw [List.length_drop, List.length_take]
        omega
      rw [hstep, if_pos hlt]
      unfold parsePushKeys
      rw [hhead, hlen2]
      by_cases h65 : sc.getD ofs 0 = 65
      · have he1 : ((some (sc.getD ofs 0) == some 33)) = false := by
          rw [h65]; rfl
        have he2 : ((some (sc.getD ofs 0) == some 65)) = true := by
          rw [h65]; rfl
        by_cases hfit : ofs + 66 ≤ E
        · rw [if_pos ⟨h65, hfit⟩, ih (ofs + 66) (by omega)]
          have he3 : (decide ((66:Nat) ≤ E - ofs)) = true := decide_eq_true (by omega)
          rw [he1, he2, he3, Bool.false_and, Bool.false_and, Bool.false_or,
            Bool.true_and, Bool.true_and, List.drop_drop]
        · rw [if_neg (fun hc => hfit hc.2),
             if_neg (fun hc => by rw [h65] at hc; omega)]
          have he3 : (decide ((66:Nat) ≤ E - ofs)) = false := decide_eq_false (by omega)
          rw [he1, he2, he3]
          apply iff_of_false
          · intro hc
            exact Nat.succ_ne_zero n ((Prod.mk.injEq _ _ _ _).mp hc).2
          · simp
      · have he1 : ((some (sc.getD ofs 0) == some 65)) = false :=
          beq_eq_false_iff_ne.mpr (fun hc => h65 (Option.some.inj hc))
        by_cases h33 : sc.getD ofs 0 = 33
        · have he2 : ((some (sc.getD ofs 0) == some 33)) = true := by
            rw [h33]; rfl
          by_cases hfit : ofs + 34 ≤ E
          · rw [if_neg (fun hc => h65 hc.1), if_pos ⟨h33, hfit⟩,
               ih (ofs + 34) (by omega)]
            have he3 : (decide ((34:Nat) ≤ E - ofs)) = true := decide_eq_true (by omega)
            rw [he1, he2, he3, Bool.true_and, Bool.true_and, Bool.false_and,
              Bool.false_and, Bool.or_false, List.drop_drop]
          · rw [if_neg (fun hc => h65 hc.1), if_neg (fun hc => hfit hc.2)]
            have he3 : (decide ((34:Nat) ≤ E - ofs)) = false := decide_eq_false (by omega)
            rw [he1, he2, he3]
            apply iff_of_false
            · intro hc
              exact Nat.succ_ne_zero n ((Prod.mk.injEq _ _ _ _).mp hc).2
            · simp
        · have he2 : ((some (sc.getD ofs 0) == some 33)) = false :=
            beq_eq_false_iff_ne.mpr (fun hc => h33 (Option.some.inj hc))
          rw [if_neg (fun hc => h65 hc.1), if_neg (fun hc => h33 hc.1),
             he1, he2]
          apply iff_of_false
          · intro hc
            exact Nat.succ_ne_zero n ((Prod.mk.injEq _ _ _ _).mp hc).2
          · simp
    · have hmt : (sc.take E).drop ofs = [] := by
        apply List.eq_nil_of_length_eq_zero
        rw [List.length_drop, List.length_take]
        omega
      rw [hstep, if_neg hlt, hmt]
      apply iff_of_false
      · intro hc
        exact Nat.succ_ne_zero n ((Prod.mk.injEq _ _ _ _).mp hc).2
      · intro hc
        have : parsePushKeys (n + 1) ([] : List Nat) = false := rfl
        rw [this] at hc
        cases hc


/-- isOP123 means the byte is in 81..83 (OP_1..OP_3). -/
lemma isOP123_range (b : Nat) (h : isOP123 b = true) : 81 ≤ b ∧ b ≤ 83 := by
  unfold isOP123 OP_1 OP_3 at h
  simpa using h

/-- A mask that selects bit pattern a also selects the union pattern. -/
lemma lor_and_ne_zero (mask a b : Nat) (h : mask &&& a ≠ 0) :
    mask &&& (a ||| b) ≠ 0 := by
  rw [Nat.and_or_distrib_left]
  intro hc
  rcases Nat.exists_most_significant_bit h with ⟨i, hi, _⟩
  have hbit : ((mask &&& a) ||| (mask &&& b)).testBit i = true := by
    simp [Nat.testBit_lor, hi]
  rw [hc] at hbit
  simp [Nat.zero_testBit] at hbit

/-- The source's multisig guard conditions are equivalent to the
specification's standard-multisig shape. -/
lemma msShapeCode_iff_spec (sc : List Nat) :
    msShapeCode sc ↔ isStandardMultiSig sc = true := by
  have hmid : (sc.take (sc.length - 2)).drop 1 = (sc.drop 1).take (sc.length - 3) := by
    rw [List.drop_take]
    congr 1
  constructor
  · rintro ⟨hL, hlast, hslb, hfst, hmn, hloop⟩
    unfold isStandardMultiSig
    unfold msLoopSucceeds at hloop
    rw [beq_iff_eq] at hloop
    have hparse := (msLoop_iff_parse sc (sc.length - 2) (Nat.sub_le _ _)
      (decodeOPN (sc.getD (sc.length - 2) 0)) 1 (by omega)).mp hloop
    rw [hmid] at hparse
    simp only [Bool.and_eq_true, beq_iff_eq, decide_eq_true_eq]
    exact ⟨⟨⟨⟨hlast, hfst⟩, hslb⟩, hmn⟩, hparse⟩
  · intro h
    unfold isStandardMultiSig at h
    simp only [Bool.and_eq_true, beq_iff_eq, decide_eq_true_eq] at h
    obtain ⟨⟨⟨⟨hlast, hfst⟩, hslb⟩, hmn⟩, hparse⟩ := h
    have hslbr := isOP123_range _ hslb
    have hn1 : 1 ≤ decodeOPN (sc.getD (sc.length - 2) 0) := by
      unfold decodeOPN OP_1
      omega
    obtain ⟨m, hm⟩ : ∃ m, decodeOPN (sc.getD (sc.length - 2) 0) = m + 1 :=
      ⟨decodeOPN (sc.getD (sc.length - 2) 0) - 1, by omega⟩
    rw [hm] at hparse
    have hlen34 := parsePushKeys_length_ge m _ hparse
    rw [List.length_take, List.length_drop] at hlen34
    have hL : 3 + 34 ≤ sc.length := by
      rcases Nat.le_min.mp hlen34 with ⟨h1, h2⟩
      omega
    refine ⟨hL, hlast, hslb, hfst, hmn, ?_⟩
    unfold msLoopSucceeds
    rw [beq_iff_eq]
    apply (msLoop_iff_parse sc (sc.length - 2) (Nat.sub_le _ _) _ 1 (by omega)).mpr
    rw [hmid, hm]
    exact hparse

/-- Claim C8: ClassifyAndCompactScript classifies a script as MultiSig
exactly when MaskMultiSig is selected and the script has the standard
multisig shape (trailing OP_CHECKMULTISIG, OP_1..OP_3 first and second-last
bytes, m at most n, and the bytes between parsing as exactly n push-ops of
a compressed or uncompressed key with no leftover); the payload is then the
whole script minus the trailing OP_CHECKMULTISIG byte. -/
theorem multisig_classification_exact_C8 :
    ∀ (sc : List Nat) (mask : Nat),
      ((classifyAndCompactScript sc mask).1 = ScriptMultiSig ↔
        (mask &&& MaskMultiSig ≠ 0 ∧ isStandardMultiSig sc = true)) ∧
      ((classifyAndCompactScript sc mask).1 = ScriptMultiSig →
        (classifyAndCompactScript sc mask).2 = sc.dropLast) := by
  intro sc mask
  by_cases hbit : mask &&& MaskMultiSig ≠ 0 ∧ isStandardMultiSig sc = true
  · obtain ⟨hb, hshape⟩ := hbit
    have hcode : msShapeCode sc := (msShapeCode_iff_spec sc).mpr hshape
    have heq : classifyAndCompactScript sc mask =
        (ScriptMultiSig, sc.take (sc.length - 1)) := by
      obtain ⟨hL, hlast, hslb, hfst, hmn, hloop⟩ := hcode
      have hfr := isOP123_range _ hfst
      have hn1 : ¬ (0 < sc.length ∧ sc.getD 0 0 = OP_RETURN ∧
          sc.length ≤ MAX_OP_RETURN_RELAY) := by
        rintro ⟨_, hr, _⟩
        unfold OP_RETURN at hr
        omega
      have hn2 : ¬ (sc.length = 25 ∧ sc.getD 0 0 = OP_DUP ∧ sc.getD 1 0 = OP_HASH160 ∧
          sc.getD 2 0 = 20 ∧ sc.getD 23 0 = OP_EQUALVERIFY ∧
          sc.getD 24 0 = OP_CHECKSIG) := by
        rintro ⟨hl, _⟩
        omega
      have hn3 : ¬ (sc.length = 35 ∧ sc.getD 0 0 = 33 ∧ sc.getD 34 0 = OP_CHECKSIG) := by
        rintro ⟨hl, _⟩
        omega
      have hn4 : ¬ (sc.length = 67 ∧ sc.getD 0 0 = 65 ∧ sc.getD 66 0 = OP_CHECKSIG) := by
        rintro ⟨_, hr, _⟩
        omega
      have hn5 : ¬ (sc.length = 23 ∧ sc.getD 0 0 = OP_HASH160 ∧ sc.getD 1 0 = 20 ∧
          sc.getD 22 0 = OP_EQUAL) := by
        rintro ⟨hl, _⟩
        omega
      simp only [classifyAndCompactScript, multisigOrFallthrough]
      rw [if_neg hn1, if_neg hn2, if_neg hn3, if_neg hn4, if_neg hn5,
        if_pos ⟨lor_and_ne_zero mask MaskMultiSig MaskNonStandard hb,
          ⟨hL, hlast, hslb, hfst, hmn, hloop⟩⟩, if_pos hb]
    refine ⟨iff_of_true (by rw [heq]) ⟨hb, hshape⟩, fun _ => ?_⟩
    rw [heq, List.dropLast_eq_take]
  · have hnot : (classifyAndCompactScript sc mask).1 ≠ ScriptMultiSig := by
      intro h4
      simp only [classifyAndCompactScript, multisigOrFallthrough] at h4
      split_ifs at h4 with g1 g2 g3 g4 g5 g6 g7 g8 g9 g10 g11 g12 g13
      all_goals
        first
        | exact hbit ⟨by assumption,
            (msShapeCode_iff_spec sc).mp g11.2⟩
        | simp [ScriptNone, ScriptP2PK, ScriptP2PKH, ScriptP2SH, ScriptMultiSig,
            ScriptNullData, ScriptNonStandard] at h4
    exact ⟨iff_of_false hnot hbit, fun h => absurd h hnot⟩


/-- Witness for C8: the 1-of-1 compressed-key multisig script classifies as
MultiSig with the script minus its last byte as payload. -/
theorem multisig_classification_exact_C8_witness :
    (classifyAndCompactScript msDemo 255).1 = ScriptMultiSig ∧
    (classifyAndCompactScript msDemo 255).2 = msDemo.dropLast := by
  have h := multisig_classification_exact_C8 msDemo 255
  have h4 : (classifyAndCompactScript msDemo 255).1 = ScriptMultiSig :=
    h.1.mpr ⟨by decide, by decide⟩
  exact ⟨h4, h.2 h4⟩

end DogeIndexer
